import Mathlib

/-
  Verification of the versioning-branch action.

  The development shallowly embeds the program's logic:
  * a model of the `semver` library functions the program calls
    (`semver.valid`, `semver.inc`), following node-semver's increment rules;
  * the version-resolution and remote-call pipeline of the two source files
    (`src/index.ts` and the unnamed companion file), with every remote
    interaction recorded as an explicit `Call` so that traces of reads and
    mutations can be inspected.
-/

/-- A semantic-version pre-release identifier: numeric or alphanumeric. -/
inductive PreId
  | num (n : Nat)
  | str (s : String)
deriving DecidableEq, Repr

/-- A parsed semantic version (build metadata is validated but dropped,
as node-semver's `.version` rendering does). -/
structure SemVer where
  major : Nat
  minor : Nat
  patch : Nat
  pre : List PreId
deriving DecidableEq, Repr

def isDigitChar (c : Char) : Bool := decide ('0' ≤ c) && decide (c ≤ '9')

def digitVal (c : Char) : Nat := c.toNat - 48

/-- Characters allowed in pre-release / build identifiers. -/
def isIdentChar (c : Char) : Bool :=
  isDigitChar c || (decide ('a' ≤ c) && decide (c ≤ 'z')) ||
    (decide ('A' ≤ c) && decide (c ≤ 'Z')) || decide (c = '-')

/-- A numeric identifier: digits only, no leading zero. -/
def parseNumeric? (cs : List Char) : Option Nat :=
  if cs.isEmpty then none
  else if ¬ cs.all isDigitChar then none
  else match cs with
    | '0' :: _ :: _ => none
    | _ => some (cs.foldl (fun n c => n * 10 + digitVal c) 0)

/-- A pre-release identifier: numeric (no leading zero) or alphanumeric
(at least one non-digit). -/
def parsePreId? (cs : List Char) : Option PreId :=
  if cs.isEmpty then none
  else if ¬ cs.all isIdentChar then none
  else if cs.all isDigitChar then (parseNumeric? cs).map PreId.num
  else some (PreId.str (String.mk cs))

/-- Split a character list at every occurrence of `c`. -/
def splitOnChar (c : Char) : List Char → List (List Char)
  | [] => [[]]
  | x :: xs =>
    let r := splitOnChar c xs
    if x = c then [] :: r
    else
      match r with
      | [] => [[x]]
      | y :: ys => (x :: y) :: ys

/-- Split at the first occurrence of `c`; the second component is `none`
when `c` does not occur. -/
def splitFirst (c : Char) : List Char → List Char × Option (List Char)
  | [] => ([], none)
  | x :: xs =>
    if x = c then ([], some xs)
    else
      let p := splitFirst c xs
      (x :: p.1, p.2)

def parseCore (cs : List Char) : Option (Nat × Nat × Nat) :=
  match splitOnChar '.' cs with
  | [a, b, c] =>
    match parseNumeric? a, parseNumeric? b, parseNumeric? c with
    | some x, some y, some z => some (x, y, z)
    | _, _, _ => none
  | _ => none

def parsePre (cs : List Char) : Option (List PreId) :=
  let parsed := (splitOnChar '.' cs).map parsePreId?
  if parsed.all Option.isSome then some (parsed.filterMap id) else none

def validBuild (cs : List Char) : Bool :=
  (splitOnChar '.' cs).all (fun p => !p.isEmpty && p.all isIdentChar)

def parseSemVerChars (cs : List Char) : Option SemVer :=
  let cs1 := match cs with
    | 'v' :: rest => rest
    | _ => cs
  let pb := splitFirst '+' cs1
  let buildOk := match pb.2 with
    | none => true
    | some b => validBuild b
  if buildOk = false then none
  else
    let cp := splitFirst '-' pb.1
    match parseCore cp.1 with
    | none => none
    | some (x, y, z) =>
      match cp.2 with
      | none => some ⟨x, y, z, []⟩
      | some p =>
        match parsePre p with
        | none => none
        | some ids => some ⟨x, y, z, ids⟩

def parseSemVer? (s : String) : Option SemVer := parseSemVerChars s.toList

/-- Join strings with a separator (model of JS `Array.prototype.join`). -/
def joinWith (sep : String) : List String → String
  | [] => ""
  | [x] => x
  | x :: y :: rest => x ++ sep ++ joinWith sep (y :: rest)

def PreId.render : PreId → String
  | PreId.num n => toString n
  | PreId.str s => s

def SemVer.render (v : SemVer) : String :=
  toString v.major ++ "." ++ toString v.minor ++ "." ++ toString v.patch ++
    match v.pre with
    | [] => ""
    | ids => "-" ++ joinWith "." (ids.map PreId.render)

/-- The release types accepted by `semver.inc`. -/
inductive ReleaseType
  | major | minor | patch | premajor | preminor | prepatch | prerelease
deriving DecidableEq, Repr

/-- Increment the last numeric identifier of a pre-release list;
`none` when no identifier is numeric (node-semver's backwards scan). -/
def bumpLastNumeric : List PreId → Option (List PreId)
  | [] => none
  | x :: xs =>
    match bumpLastNumeric xs with
    | some xs1 => some (x :: xs1)
    | none =>
      match x with
      | PreId.num n => some (PreId.num (n + 1) :: xs)
      | PreId.str _ => none

/-- node-semver's `inc('pre', identifier)` step. -/
def SemVer.incPre (v : SemVer) (identifier : Option String) : SemVer :=
  let pre1 : List PreId :=
    if v.pre.isEmpty then [PreId.num 0]
    else
      match bumpLastNumeric v.pre with
      | some p => p
      | none => v.pre ++ [PreId.num 0]
  match identifier with
  | none => { v with pre := pre1 }
  | some id =>
    -- node: keep the bumped list only when its head is the string
    -- `identifier` and the following element is numeric
    let keep : Bool :=
      match pre1 with
      | PreId.str s :: PreId.num _ :: _ => s == id
      | _ => false
    if keep then { v with pre := pre1 }
    else { v with pre := [PreId.str id, PreId.num 0] }

/-- node-semver's `SemVer.inc` for the release types the program can pass. -/
def SemVer.incType (v : SemVer) (r : ReleaseType) (identifier : Option String) : SemVer :=
  match r with
  | ReleaseType.premajor => SemVer.incPre ⟨v.major + 1, 0, 0, []⟩ identifier
  | ReleaseType.preminor => SemVer.incPre ⟨v.major, v.minor + 1, 0, []⟩ identifier
  | ReleaseType.prepatch => SemVer.incPre ⟨v.major, v.minor, v.patch + 1, []⟩ identifier
  | ReleaseType.prerelease =>
    if v.pre.isEmpty then SemVer.incPre ⟨v.major, v.minor, v.patch + 1, []⟩ identifier
    else SemVer.incPre v identifier
  | ReleaseType.major =>
    if v.minor ≠ 0 ∨ v.patch ≠ 0 ∨ v.pre.isEmpty then ⟨v.major + 1, 0, 0, []⟩
    else ⟨v.major, 0, 0, []⟩
  | ReleaseType.minor =>
    if v.patch ≠ 0 ∨ v.pre.isEmpty then ⟨v.major, v.minor + 1, 0, []⟩
    else ⟨v.major, v.minor, 0, []⟩
  | ReleaseType.patch =>
    if v.pre.isEmpty then ⟨v.major, v.minor, v.patch + 1, []⟩
    else ⟨v.major, v.minor, v.patch, []⟩

/-- `semver.valid`: the normalized version string, `none` when invalid. -/
def semver.valid (s : String) : Option String := (parseSemVer? s).map SemVer.render

/-- `semver.inc`: increment a version string, `none` when it does not parse. -/
def semver.inc (s : String) (r : ReleaseType) (identifier : Option String) : Option String :=
  (parseSemVer? s).map (fun v => (v.incType r identifier).render)

example : parseSemVer? "1.2.3" = some ⟨1, 2, 3, []⟩ := by decide
example : parseSemVer? "2.0.0-beta.1" = some ⟨2, 0, 0, [PreId.str "beta", PreId.num 1]⟩ := by decide
example : semver.inc "1.2.3" ReleaseType.minor none = some "1.3.0" := by decide
example : semver.inc "1.2.3" ReleaseType.prerelease none = some "1.2.4-0" := by decide
example : semver.inc "1.2.3" ReleaseType.major (some "beta") = some "2.0.0" := by decide
example : semver.inc "1.2.3" ReleaseType.premajor (some "beta") = some "2.0.0-beta.0" := by decide
example : semver.valid "not-a-version" = none := by decide
example : (semver.valid "v1.2.3+build.7") = some "1.2.3" := by decide

/-
  The program's configuration inputs, as read by `main` in both source files
  (`core.getInput(...) || ''`, so an absent input is the empty string).
-/
structure Inputs where
  baseBranch : String
  versionType : String
  -- the `version-branch-prefix` input (`branchPrefix` in the source)
  branchPref : String
  -- the raw `prerelease` input; the source compares it to the string "true"
  prereleaseInput : String
  preId : String
deriving DecidableEq, Repr

/-- One remote interaction issued by the program (octokit / raw fetch). -/
inductive Call
  | fetchPackage (branch : String)
  | getCommit (ref : String)
  | createRef (ref : String) (sha : String)
  | listPulls (head : String) (base : String)
  | updatePull (number : Nat) (title : Option String) (body : Option String) (state : String)
  | createPull (head : String) (base : String) (title : Option String) (body : Option String)
      (draft : Bool)
  | loadTemplate (path : String)
  | listComments (issue : Nat)
  | updateComment (id : Nat) (body : String)
  | createComment (issue : Nat) (body : String)
  | checkAssignable (assignee : String)
  | addAssignees (issue : Nat) (assignees : List String)
  | requestReviewers (number : Nat) (reviewers : List String) (teamReviewers : List String)
  | addLabels (issue : Nat) (labels : List String)
deriving DecidableEq, Repr

/-- Calls that mutate remote state; the rest are reads. -/
def Call.isMutation : Call → Bool
  | Call.fetchPackage _ => false
  | Call.getCommit _ => false
  | Call.listPulls _ _ => false
  | Call.loadTemplate _ => false
  | Call.listComments _ => false
  | Call.checkAssignable _ => false
  | _ => true

/-- Outcome of one run of `main`: the remote calls issued in order, the
outputs written via `core.setOutput`, and the `core.setFailed` message when
the run threw. -/
structure RunResult where
  calls : List Call
  outputs : List (String × String)
  error : Option String
deriving DecidableEq, Repr

/-- The release-type `switch` shared by both source files. Its third case is
labeled `'major'` again (its body reads `prepatch`/`patch`), and a duplicate
case label in a JS switch never matches, so `versionType 'patch'` reaches the
default branch, which in the unnamed file assigns `'prerelease'`. -/
def resolveReleaseType (versionType : String) (prerelease : Bool) : ReleaseType :=
  if versionType == "major" then (if prerelease then ReleaseType.premajor else ReleaseType.major)
  else if versionType == "minor" then
    (if prerelease then ReleaseType.preminor else ReleaseType.minor)
  else ReleaseType.prerelease

/-- JS `s || undefined` (and `s || null`): an empty string becomes absent. -/
def orUndefined (s : String) : Option String := if s = "" then none else some s

/-- `main` of the unnamed source file: input validation, version resolution,
then unconditional branch-ref creation on the base branch's head commit.
`pkgVersion` is the `version` field fetched from the base branch's
`package.json`; `baseSha` is the commit SHA the get-commit call returns. -/
def part000Main (inp : Inputs) (pkgVersion : String) (baseSha : String) : RunResult :=
  if inp.baseBranch = "" then
    { calls := [], outputs := [], error := some "Must provide base branch." }
  else if ¬ (inp.versionType = "major" ∨ inp.versionType = "minor" ∨
      inp.versionType = "patch" ∨ inp.versionType = "prerelease") then
    { calls := [], outputs := [], error := some ("Invalid version-type: " ++ inp.versionType) }
  else
    let calls0 := [Call.fetchPackage inp.baseBranch]
    match semver.valid pkgVersion with
    | none =>
      { calls := calls0, outputs := [],
        error := some ("Base version " ++ pkgVersion ++ " is invalid.") }
    | some _ =>
      let rt := resolveReleaseType inp.versionType (inp.prereleaseInput == "true")
      -- `semver.inc(baseVersion, releaseType, false, preId || null)`;
      -- JS would interpolate a null result as the string "null"
      let newVersion := (semver.inc pkgVersion rt (orUndefined inp.preId)).getD "null"
      let headBranch := inp.branchPref ++ newVersion
      let headBranchRef := "refs/heads/" ++ headBranch
      { calls := calls0 ++
          [Call.getCommit ("refs/heads/" ++ inp.baseBranch),
           Call.createRef headBranchRef baseSha],
        outputs := [("base-branch", inp.baseBranch), ("base-version", pkgVersion),
          ("head-branch", headBranch), ("head-version", newVersion)],
        error := none }

example :
    part000Main ⟨"main", "minor", "rel_", "", ""⟩ "1.2.3" "abc123" =
      { calls := [Call.fetchPackage "main", Call.getCommit "refs/heads/main",
          Call.createRef "refs/heads/rel_1.3.0" "abc123"],
        outputs := [("base-branch", "main"), ("base-version", "1.2.3"),
          ("head-branch", "rel_1.3.0"), ("head-version", "1.3.0")],
        error := none } := by decide

/-- A pull request as the platform reports it. -/
structure PullReq where
  number : Nat
  url : String
  state : String
  title : String
  body : String
  draft : Bool
  updatedAt : Nat
deriving DecidableEq, Repr

/-- Platform semantics of update-pull-request: an omitted (undefined) field
is left unchanged, the state is set as given. The source keeps the response
data as the new `pullRequest`. -/
def applyUpdate (pr : PullReq) (title body : Option String) (st : String) : PullReq :=
  { pr with title := title.getD pr.title, body := body.getD pr.body, state := st }

/-- The pull-request reconciliation block of `src/index.ts` (list by
head/base sorted by update time descending, take the first, enforce
`pr-fail-if-exist`, then update-and-reopen or create). `prList` is the list
the platform returns; `newPr` is the response data of a create call. -/
def prStage (headBranch baseBranch prTitle prDescription prCreateDraft prFailIfExist : String)
    (prList : List PullReq) (newPr : PullReq) : List Call × Except String PullReq :=
  let listCall := Call.listPulls headBranch baseBranch
  match prList.head? with
  | some pr =>
    if prFailIfExist = "true" ∧ pr.state = "open" then
      ([listCall],
       Except.error ("Not allowed to re-issue a pull request to base branch: " ++ baseBranch ++
         " from head branch: " ++ headBranch ++ ". An open pull request is found."))
    else
      let t := orUndefined prTitle
      let b := orUndefined prDescription
      ([listCall, Call.updatePull pr.number t b "open"],
       Except.ok (applyUpdate pr t b "open"))
  | none =>
    let t := orUndefined prTitle
    let b := orUndefined prDescription
    ([listCall, Call.createPull headBranch baseBranch t b (prCreateDraft == "true")],
     Except.ok newPr)

/-- An issue comment as the platform reports it (`comment.id`,
`comment.user.login`, `comment.user.id`). -/
structure IssueComment where
  id : Nat
  userLogin : String
  userId : Nat
deriving DecidableEq, Repr

/-- The comment filter of `src/index.ts`: authored by the GitHub Actions bot,
matched by login or by the fixed numeric account id. -/
def isBotComment (c : IssueComment) : Bool :=
  c.userLogin == "github-actions[bot]" || c.userId == 41898282

/-- The info-comment reconciliation block of `src/index.ts`: list the PR's
comments, destructure the first bot-authored one, update it when found,
otherwise create a new comment with the rendered body. -/
def infoCommentStage (prNumber : Nat) (body : String) (comments : List IssueComment) :
    List Call :=
  match (comments.filter isBotComment).head? with
  | some c => [Call.listComments prNumber, Call.updateComment c.id body]
  | none => [Call.listComments prNumber, Call.createComment prNumber body]

/-- Settled outcome of one `checkUserCanBeAssigned` request: a response with
its HTTP status, or a rejected promise (octokit throws on 404). -/
inductive CheckOutcome
  | ok (status : Nat)
  | failed
deriving DecidableEq, Repr

/-- The source pushes an assignee only when the check answered 204
(`StatusCodes.NO_CONTENT`). -/
def confirmedOutcome : CheckOutcome → Bool
  | CheckOutcome.ok 204 => true
  | _ => false

/-- JS `xs.length && xs.join(',') || ''`. -/
def joinOrEmpty (xs : List String) : String :=
  if xs.isEmpty then "" else joinWith "," xs

/-- The assignee block of `src/index.ts`: when the requested list is
non-empty, check every requested assignee (the checks are fanned out with
`Promise.allSettled`, so one failure aborts nothing), collect the confirmed
ones, and, when any was confirmed, issue one add-assignees call that passes
the originally requested list. Returns the calls and the `assignees` output
string. -/
def assigneeStage (prNumber : Nat) (prAssignees : List String)
    (check : String → CheckOutcome) : List Call × String :=
  if prAssignees.isEmpty then ([], joinOrEmpty [])
  else
    let assignees := prAssignees.filter (fun a => confirmedOutcome (check a))
    let checkCalls := prAssignees.map Call.checkAssignable
    let applyCalls :=
      if assignees.isEmpty then [] else [Call.addAssignees prNumber prAssignees]
    (checkCalls ++ applyCalls, joinOrEmpty assignees)

/-- The free variables of the `src/index.ts` fragment (defined in parts of
the file that are not in the repository snapshot) together with the data the
platform returns to its calls. -/
structure IndexEnv where
  headBranch : String
  prTitle : String
  prDescription : String
  prCreateDraft : String
  prFailIfExist : String
  isPrerelease : String
  prAssignees : List String
  prReviewers : List String
  prTeamReviewers : List String
  prLabels : List String
  infoCommentBody : String
  prList : List PullReq
  newPr : PullReq
  comments : List IssueComment
  check : String → CheckOutcome

/-- `main` of `src/index.ts`: validation, the (unused) version bump, then the
PR, info-comment, assignee, reviewer and label stages. The release-type
`switch` and `semver.inc(baseVersion,)` compute a value the fragment never
uses, so they leave no trace here. -/
def indexMain (inp : Inputs) (pkgVersion : String) (env : IndexEnv) : RunResult :=
  if inp.baseBranch = "" then
    { calls := [], outputs := [], error := some "Must provide base branch." }
  else if ¬ (inp.versionType = "major" ∨ inp.versionType = "minor" ∨
      inp.versionType = "patch") then
    { calls := [], outputs := [], error := some ("Invalid version-type: " ++ inp.versionType) }
  else
    let calls0 := [Call.fetchPackage inp.baseBranch]
    match semver.valid pkgVersion with
    | none =>
      { calls := calls0, outputs := [],
        error := some ("Base version " ++ pkgVersion ++ " is invalid.") }
    | some _ =>
      let outputs0 := [("base-branch", inp.baseBranch), ("base-version", pkgVersion),
        ("head-branch", inp.baseBranch), ("head-version", pkgVersion),
        ("is-prerelease", env.isPrerelease), ("is-draft-pr", env.prCreateDraft)]
      match prStage env.headBranch inp.baseBranch env.prTitle env.prDescription
          env.prCreateDraft env.prFailIfExist env.prList env.newPr with
      | (prCalls, Except.error msg) =>
        { calls := calls0 ++ prCalls, outputs := outputs0, error := some msg }
      | (prCalls, Except.ok pr) =>
        let outputs1 := outputs0 ++
          [("pull-request-number", toString pr.number), ("pull-request-url", pr.url)]
        let commentCalls := Call.loadTemplate "templates/pr-info-comment.yml" ::
          infoCommentStage pr.number env.infoCommentBody env.comments
        let aRes := assigneeStage pr.number env.prAssignees env.check
        let rCalls :=
          if env.prReviewers.isEmpty && env.prTeamReviewers.isEmpty then []
          else [Call.requestReviewers pr.number env.prReviewers env.prTeamReviewers]
        let lCalls :=
          if env.prLabels.isEmpty then [] else [Call.addLabels pr.number env.prLabels]
        { calls := calls0 ++ prCalls ++ commentCalls ++ aRes.1 ++ rCalls ++ lCalls,
          outputs := outputs1 ++ [("assignees", aRes.2),
            ("reviewers", joinOrEmpty env.prReviewers),
            ("team-reviewers", joinOrEmpty env.prTeamReviewers),
            ("labels", joinOrEmpty env.prLabels)],
          error := none }

/-- Modelled from the spec: the release-type table of the version resolver
(§4.1) — presence of a pre-release id upgrades major/minor/patch to
premajor/preminor/prepatch, while `prerelease` stays `prerelease`. The
`custom-version` resolution path this table belongs to is declared in
`action.yml` but implemented by no code under `src/`. -/
def specReleaseType (bumpLevel : String) (hasPreId : Bool) : ReleaseType :=
  if bumpLevel == "major" then
    (if hasPreId then ReleaseType.premajor else ReleaseType.major)
  else if bumpLevel == "minor" then
    (if hasPreId then ReleaseType.preminor else ReleaseType.minor)
  else if bumpLevel == "patch" then
    (if hasPreId then ReleaseType.prepatch else ReleaseType.patch)
  else ReleaseType.prerelease

/-- Modelled from the spec: the version resolver with the `custom-version`
override (§4.1). The `custom-version` input is declared in `action.yml`
(\"If specified, it will be used as the version\") but no code under `src/`
reads it; per the spec, a present and valid `customVersion` is returned
verbatim, bypassing the bump computation, an invalid one is an
`InvalidVersionError`, and an absent one falls through to the computed
bump. -/
def resolveVersion (bumpLevel preId customVersion baseVersion : String) :
    Except String String :=
  if customVersion ≠ "" then
    if (semver.valid customVersion).isSome then Except.ok customVersion
    else Except.error "InvalidVersionError"
  else if ¬ (bumpLevel = "major" ∨ bumpLevel = "minor" ∨ bumpLevel = "patch" ∨
      bumpLevel = "prerelease") then
    Except.error "InvalidInputError"
  else if (semver.valid baseVersion).isNone then Except.error "InvalidVersionError"
  else
    match semver.inc baseVersion (specReleaseType bumpLevel (preId != "")) (orUndefined preId) with
    | some v => Except.ok v
    | none => Except.error "InvalidVersionError"

/-
  Helper lemmas shared by the claim theorems.
-/

theorem head?_filter_eq_find? (p : α → Bool) (l : List α) :
    (l.filter p).head? = l.find? p := by
  induction l with
  | nil => rfl
  | cons x xs ih =>
    by_cases h : p x = true
    · simp [List.filter_cons, List.find?_cons, h]
    · simp [List.filter_cons, List.find?_cons, h, ih]

theorem orUndefined_ne_some_empty (s : String) : orUndefined s ≠ some "" := by
  unfold orUndefined
  by_cases h : s = "" <;> simp [h]

/-
  The claims.
-/

/-- C1: whenever `customVersion` is present (non-empty) and is a valid
semantic version, the resolved version is `customVersion` verbatim, for every
`bumpLevel`, `preId` and base version, and the bump computation is bypassed:
the result does not depend on any of the other inputs. -/
theorem c1_custom_version_wins
    (bumpLevel preId customVersion baseVersion bumpLevel2 preId2 baseVersion2 : String)
    (hne : customVersion ≠ "") (hval : (semver.valid customVersion).isSome = true) :
    resolveVersion bumpLevel preId customVersion baseVersion = Except.ok customVersion ∧
    resolveVersion bumpLevel preId customVersion baseVersion =
      resolveVersion bumpLevel2 preId2 customVersion baseVersion2 := by
  constructor <;> simp [resolveVersion, hne, hval]

/-- Witness for C1 at customVersion "9.9.9", two unrelated bump settings. -/
theorem c1_custom_version_wins_witness :
    resolveVersion "major" "beta" "9.9.9" "1.2.3" = Except.ok "9.9.9" ∧
    resolveVersion "major" "beta" "9.9.9" "1.2.3" =
      resolveVersion "patch" "" "9.9.9" "0.0.1" :=
  c1_custom_version_wins "major" "beta" "9.9.9" "1.2.3" "patch" "" "0.0.1"
    (by decide) (by decide)

/-- C2 (code evaluation at the claimed scenario): with base version "1.2.3",
the program resolves "minor" to "1.3.0" as claimed, but resolves "patch" to
"1.2.4-0" — the switch's second case is labeled `'major'` instead of
`'patch'`, so "patch" falls to the default `'prerelease'` branch — and
resolves "major" with pre-id "beta" to "2.0.0" rather than the claimed
"2.0.0-beta.0", because the pre-id does not upgrade the release type. -/
theorem c2_concrete_scenarios_diverge :
    (part000Main ⟨"main", "minor", "", "", ""⟩ "1.2.3" "sha").outputs.lookup "head-version" =
      some "1.3.0" ∧
    (part000Main ⟨"main", "patch", "", "", ""⟩ "1.2.3" "sha").outputs.lookup "head-version" =
      some "1.2.4-0" ∧
    (part000Main ⟨"main", "major", "", "", "beta"⟩ "1.2.3" "sha").outputs.lookup "head-version" =
      some "2.0.0" := by decide

/-- C3 (code evaluation at a failing input): bump level "patch" with no
pre-id on the valid base "1.2.3" resolves through release type 'prerelease'
(duplicate `'major'` case label) and produces "1.2.4-0", a version carrying
a pre-release identifier — contradicting the claim that exactly the patch
component is incremented with no pre-release identifier attached. -/
theorem c3_patch_bump_attaches_prerelease :
    resolveReleaseType "patch" false = ReleaseType.prerelease ∧
    semver.inc "1.2.3" (resolveReleaseType "patch" false) none = some "1.2.4-0" ∧
    parseSemVer? "1.2.4-0" = some ⟨1, 2, 4, [PreId.num 0]⟩ := by decide

/-- C4 (code evaluation at a failing input): the release-type switch keys the
pre-release upgrade on the separate `prerelease` input — which `action.yml`
does not declare, so it reads as "" — and never consults `preId`: with
pre-id "beta" and bump level "major", the release type stays 'major' and the
bump yields "2.0.0" instead of the claimed premajor "2.0.0-beta.0"; and
"patch" can never become 'prepatch' — even with the upgrade flag set it
resolves to 'prerelease'. -/
theorem c4_preid_does_not_upgrade_release_type :
    resolveReleaseType "major" ("" == "true") = ReleaseType.major ∧
    semver.inc "1.2.3" (resolveReleaseType "major" ("" == "true")) (some "beta") =
      some "2.0.0" ∧
    resolveReleaseType "patch" true = ReleaseType.prerelease := by decide

/-- C5: a bump level outside {major, minor, patch, prerelease}, or an
invalid base version, makes the run of either source file end in a terminal
error with no mutating remote call (no ref creation, PR creation or update,
comment, assignee, reviewer or label call) in its trace. -/
theorem c5_invalid_inputs_fail_before_mutation (inp : Inputs) (pkg sha : String)
    (env : IndexEnv)
    (h : ¬ (inp.versionType = "major" ∨ inp.versionType = "minor" ∨
        inp.versionType = "patch" ∨ inp.versionType = "prerelease") ∨
      (semver.valid pkg).isNone = true) :
    ((part000Main inp pkg sha).error.isSome = true ∧
      (part000Main inp pkg sha).calls.all (fun c => !c.isMutation) = true) ∧
    ((indexMain inp pkg env).error.isSome = true ∧
      (indexMain inp pkg env).calls.all (fun c => !c.isMutation) = true) := by
  have h3 : ¬ (inp.versionType = "major" ∨ inp.versionType = "minor" ∨
      inp.versionType = "patch") ∨ (semver.valid pkg).isNone = true := by
    rcases h with h | h
    · exact Or.inl (fun hc => h (by tauto))
    · exact Or.inr h
  constructor
  · unfold part000Main
    by_cases hb : inp.baseBranch = ""
    · simp [hb]
    · by_cases h4 : inp.versionType = "major" ∨ inp.versionType = "minor" ∨
          inp.versionType = "patch" ∨ inp.versionType = "prerelease"
      · have hpkg : (semver.valid pkg).isNone = true := by tauto
        rw [Option.isNone_iff_eq_none] at hpkg
        simp [hb, h4, hpkg, Call.isMutation]
      · simp [hb, h4, Call.isMutation]
  · unfold indexMain
    by_cases hb : inp.baseBranch = ""
    · simp [hb]
    · by_cases h4 : inp.versionType = "major" ∨ inp.versionType = "minor" ∨
          inp.versionType = "patch"
      · have hpkg : (semver.valid pkg).isNone = true := by tauto
        rw [Option.isNone_iff_eq_none] at hpkg
        simp [hb, h4, hpkg, Call.isMutation]
      · simp [hb, h4, Call.isMutation]

/-- Witness for C5: bump level "foo" on valid base "1.2.3". -/
theorem c5_witness :
    (part000Main ⟨"main", "foo", "", "", ""⟩ "1.2.3" "sha").error.isSome = true ∧
    (part000Main ⟨"main", "foo", "", "", ""⟩ "1.2.3" "sha").calls.all
      (fun c => !c.isMutation) = true :=
  (c5_invalid_inputs_fail_before_mutation ⟨"main", "foo", "", "", ""⟩ "1.2.3" "sha"
    ⟨"h", "", "", "", "", "", [], [], [], [], "", [],
      ⟨1, "u", "open", "", "", false, 0⟩, [], fun _ => CheckOutcome.failed⟩
    (Or.inl (by decide))).1

/-- C6 (code evaluation): ref reconciliation in the unnamed source file is
not idempotent — it never looks the head ref up and always issues a creation
call. At base version "1.2.3", bump "minor", the trace unconditionally ends
with a createRef for "refs/heads/rel_1.3.0" (the function takes no remote
state, so a second identical invocation issues a second creation call), and
no `is-new-branch` output is ever written. -/
theorem c6_ref_creation_is_unconditional :
    (part000Main ⟨"main", "minor", "rel_", "", ""⟩ "1.2.3" "sha").calls =
      [Call.fetchPackage "main", Call.getCommit "refs/heads/main",
       Call.createRef "refs/heads/rel_1.3.0" "sha"] ∧
    (part000Main ⟨"main", "minor", "rel_", "", ""⟩ "1.2.3" "sha").outputs.lookup
      "is-new-branch" = none := by decide

/-- C7: pull-request reconciliation. With the platform's list sorted by
update time descending, the head of the list is the canonical candidate and
is most recently updated; when no PR exists a create call with the given
draft flag is issued; when the candidate is closed it is updated in place
with its state forced to "open" (reopened); when the candidate is open and
fail-if-existing-open is set, the stage fails and its trace holds no
mutation. -/
theorem c7_pr_reconciliation_cases
    (hb bb t d cd fie : String) (l : List PullReq) (newPr : PullReq)
    (hsorted : l.Pairwise (fun a b => b.updatedAt ≤ a.updatedAt)) :
    (l = [] →
      prStage hb bb t d cd fie l newPr =
        ([Call.listPulls hb bb,
          Call.createPull hb bb (orUndefined t) (orUndefined d) (cd == "true")],
         Except.ok newPr)) ∧
    (∀ pr, l.head? = some pr →
      (∀ q ∈ l, q.updatedAt ≤ pr.updatedAt) ∧
      (pr.state = "closed" →
        prStage hb bb t d cd fie l newPr =
          ([Call.listPulls hb bb,
            Call.updatePull pr.number (orUndefined t) (orUndefined d) "open"],
           Except.ok (applyUpdate pr (orUndefined t) (orUndefined d) "open"))) ∧
      (pr.state = "open" → fie = "true" →
        prStage hb bb t d cd fie l newPr =
          ([Call.listPulls hb bb],
           Except.error ("Not allowed to re-issue a pull request to base branch: " ++ bb ++
             " from head branch: " ++ hb ++ ". An open pull request is found.")) ∧
        (prStage hb bb t d cd fie l newPr).1.all (fun c => !c.isMutation) = true)) := by
  cases l with
  | nil =>
    constructor
    · intro _
      simp [prStage]
    · intro pr hpr
      simp at hpr
  | cons p rest =>
    constructor
    · intro hcon
      cases hcon
    intro pr hpr
    have hpr' : pr = p := by
      simp only [List.head?_cons, Option.some.injEq] at hpr
      exact hpr.symm
    subst hpr'
    obtain ⟨hmax, -⟩ := List.pairwise_cons.1 hsorted
    refine ⟨?_, fun hclosed => ?_, fun hopen hfie => ?_⟩
    · intro q hq
      rcases List.mem_cons.1 hq with hq | hq
      · exact hq ▸ Nat.le_refl _
      · exact hmax q hq
    · have hno : ¬ (fie = "true" ∧ pr.state = "open") := by
        rw [hclosed]; rintro ⟨-, h⟩; exact absurd h (by decide)
      simp [prStage, hno]
    · simp [prStage, hfie, hopen, Call.isMutation]

/-- Witness for C7: an open canonical candidate with fail-if-existing-open
set makes the stage fail after the one read. -/
theorem c7_pr_reconciliation_cases_witness :
    prStage "h" "b" "T" "D" "true" "true"
        [⟨1, "u", "open", "T0", "B0", false, 5⟩] ⟨2, "u2", "open", "", "", true, 9⟩ =
      ([Call.listPulls "h" "b"],
       Except.error ("Not allowed to re-issue a pull request to base branch: " ++ "b" ++
         " from head branch: " ++ "h" ++ ". An open pull request is found.")) :=
  (((c7_pr_reconciliation_cases "h" "b" "T" "D" "true" "true"
      [⟨1, "u", "open", "T0", "B0", false, 5⟩] ⟨2, "u2", "open", "", "", true, 9⟩
      (List.pairwise_singleton _ _)).2
    ⟨1, "u", "open", "T0", "B0", false, 5⟩ rfl).2.2 rfl rfl).1

/-- C8: info-comment reconciliation selects the first comment authored by
the automation identity — matched by login or by the fixed numeric id,
either qualifying — updates it in place when found (creating nothing), and
creates a comment with the rendered body when no comment matches. -/
theorem c8_info_comment_reconciliation (n : Nat) (body : String)
    (comments : List IssueComment) :
    (∀ c, comments.find? isBotComment = some c →
      infoCommentStage n body comments =
        [Call.listComments n, Call.updateComment c.id body]) ∧
    (comments.find? isBotComment = none →
      infoCommentStage n body comments =
        [Call.listComments n, Call.createComment n body]) := by
  constructor
  · intro c hc
    unfold infoCommentStage
    rw [head?_filter_eq_find?, hc]
  · intro hc
    unfold infoCommentStage
    rw [head?_filter_eq_find?, hc]

/-- Witness for C8: a login-matched comment and an id-matched comment are
updated; an empty comment list leads to creation. -/
theorem c8_info_comment_reconciliation_witness :
    infoCommentStage 3 "B" [⟨9, "github-actions[bot]", 0⟩] =
      [Call.listComments 3, Call.updateComment 9 "B"] ∧
    infoCommentStage 3 "B" [⟨8, "someone-else", 41898282⟩] =
      [Call.listComments 3, Call.updateComment 8 "B"] ∧
    infoCommentStage 3 "B" [] = [Call.listComments 3, Call.createComment 3 "B"] :=
  ⟨(c8_info_comment_reconciliation 3 "B" [⟨9, "github-actions[bot]", 0⟩]).1
      ⟨9, "github-actions[bot]", 0⟩ (by decide),
   (c8_info_comment_reconciliation 3 "B" [⟨8, "someone-else", 41898282⟩]).1
      ⟨8, "someone-else", 41898282⟩ (by decide),
   (c8_info_comment_reconciliation 3 "B" []).2 rfl⟩

/-- C9: the assignee stage. For any non-empty requested list: every
requested assignee gets its own assignability check in the trace whatever
the other checks return (one check's failure aborts nothing), the
`assignees` output is exactly the platform-confirmed subset joined by
commas (the empty string when none is confirmed), and the add-assignees
call, when issued, passes the originally requested list — never the
filtered list when the two differ. -/
theorem c9_assignee_stage_contract (n : Nat) (req : List String)
    (check : String → CheckOutcome) (hne : req ≠ []) :
    (∀ a ∈ req, Call.checkAssignable a ∈ (assigneeStage n req check).1) ∧
    ((assigneeStage n req check).2 =
      joinOrEmpty (req.filter (fun a => confirmedOutcome (check a)))) ∧
    (req.filter (fun a => confirmedOutcome (check a)) ≠ [] →
      Call.addAssignees n req ∈ (assigneeStage n req check).1) ∧
    (req.filter (fun a => confirmedOutcome (check a)) ≠ req →
      ∀ m, Call.addAssignees m (req.filter (fun a => confirmedOutcome (check a))) ∉
        (assigneeStage n req check).1) := by
  have hreq : req.isEmpty = false := by
    cases req with
    | nil => exact absurd rfl hne
    | cons x xs => rfl
  have hstage : assigneeStage n req check =
      (req.map Call.checkAssignable ++
        (if (req.filter (fun a => confirmedOutcome (check a))).isEmpty then []
         else [Call.addAssignees n req]),
       joinOrEmpty (req.filter (fun a => confirmedOutcome (check a)))) := by
    simp only [assigneeStage, hreq, Bool.false_eq_true, if_false]
  refine ⟨?_, ?_, ?_, ?_⟩
  · intro a ha
    rw [hstage]
    exact List.mem_append_left _ (List.mem_map.2 ⟨a, ha, rfl⟩)
  · rw [hstage]
  · intro hfil
    have hfe : (req.filter (fun a => confirmedOutcome (check a))).isEmpty = false := by
      cases hq : req.filter (fun a => confirmedOutcome (check a)) with
      | nil => exact absurd hq hfil
      | cons y ys => rfl
    rw [hstage, hfe]
    simp
  · intro hfil m hmem
    rw [hstage] at hmem
    rcases List.mem_append.1 hmem with hmem | hmem
    · rcases List.mem_map.1 hmem with ⟨a, -, ha⟩
      cases ha
    · by_cases hfe : (req.filter (fun a => confirmedOutcome (check a))).isEmpty = true
      · rw [if_pos hfe] at hmem
        simp at hmem
      · rw [if_neg hfe] at hmem
        have h := List.mem_singleton.1 hmem
        injection h with h1 h2
        exact hfil h2

/-- The settled check outcomes of the C9 witness scenario: "alice" answers
204, every other check fails. -/
def c9Check : String → CheckOutcome :=
  fun a => if a = "alice" then CheckOutcome.ok 204 else CheckOutcome.failed

/-- Witness for C9: requested ["alice", "bob"], only "alice" confirmed. -/
theorem c9_assignee_stage_contract_witness :
    Call.checkAssignable "bob" ∈ (assigneeStage 7 ["alice", "bob"] c9Check).1 ∧
    (assigneeStage 7 ["alice", "bob"] c9Check).2 = "alice" ∧
    Call.addAssignees 7 ["alice", "bob"] ∈ (assigneeStage 7 ["alice", "bob"] c9Check).1 ∧
    Call.addAssignees 7 ["alice"] ∉ (assigneeStage 7 ["alice", "bob"] c9Check).1 := by
  have h := c9_assignee_stage_contract 7 ["alice", "bob"] c9Check (by decide)
  have hfil : ["alice", "bob"].filter (fun a => confirmedOutcome (c9Check a)) = ["alice"] := by
    decide
  refine ⟨h.1 "bob" (by decide), ?_, ?_, ?_⟩
  · rw [h.2.1, hfil]
    decide
  · exact h.2.2.1 (by rw [hfil]; decide)
  · have hm := h.2.2.2 (by rw [hfil]; decide) 7
    rw [hfil] at hm
    exact hm

/-- C10: an empty pull-request title or description is passed as absent
(JS `s || undefined`), never as an empty string: with empty inputs the
update call carries no title and no body — and the platform therefore
leaves both unchanged while reopening — and the create call carries no
title and no body; and for any inputs, no update or create call in the
stage's trace ever carries an explicitly empty title or body. -/
theorem c10_empty_title_body_absent (hb bb t d cd fie : String)
    (l : List PullReq) (newPr pr : PullReq) :
    (l.head? = some pr → ¬ (fie = "true" ∧ pr.state = "open") →
      prStage hb bb "" "" cd fie l newPr =
        ([Call.listPulls hb bb, Call.updatePull pr.number none none "open"],
         Except.ok { pr with state := "open" })) ∧
    (l = [] →
      prStage hb bb "" "" cd fie l newPr =
        ([Call.listPulls hb bb, Call.createPull hb bb none none (cd == "true")],
         Except.ok newPr)) ∧
    (applyUpdate pr none none "open" = { pr with state := "open" }) ∧
    (∀ c ∈ (prStage hb bb t d cd fie l newPr).1,
      (∀ m tt bd st, c = Call.updatePull m tt bd st → tt ≠ some "" ∧ bd ≠ some "") ∧
      (∀ hh bs tt bd dr, c = Call.createPull hh bs tt bd dr → tt ≠ some "" ∧ bd ≠ some "")) := by
  refine ⟨?_, ?_, ?_, ?_⟩
  · intro hpr hno
    cases l with
    | nil => simp at hpr
    | cons p rest =>
      simp only [List.head?_cons, Option.some.injEq] at hpr
      subst hpr
      simp [prStage, hno, applyUpdate, orUndefined]
  · intro hl
    subst hl
    simp [prStage, orUndefined]
  · simp [applyUpdate]
  · intro c hc
    cases l with
    | nil =>
      have ht : (prStage hb bb t d cd fie [] newPr).1 =
          [Call.listPulls hb bb,
           Call.createPull hb bb (orUndefined t) (orUndefined d) (cd == "true")] := rfl
      rw [ht] at hc
      rcases List.mem_cons.1 hc with hc | hc
      · subst hc
        refine ⟨fun m tt bd st hcall => ?_, fun hh bs tt bd dr hcall => ?_⟩ <;> cases hcall
      · have hc := List.mem_singleton.1 hc
        subst hc
        refine ⟨fun m tt bd st hcall => ?_, fun hh bs tt bd dr hcall => ?_⟩
        · cases hcall
        · injection hcall with h1 h2 h3 h4 h5
          subst h3
          subst h4
          exact ⟨orUndefined_ne_some_empty t, orUndefined_ne_some_empty d⟩
    | cons p rest =>
      by_cases hfail : fie = "true" ∧ p.state = "open"
      · have ht : (prStage hb bb t d cd fie (p :: rest) newPr).1 = [Call.listPulls hb bb] := by
          simp [prStage, hfail]
        rw [ht] at hc
        have hc := List.mem_singleton.1 hc
        subst hc
        refine ⟨fun m tt bd st hcall => ?_, fun hh bs tt bd dr hcall => ?_⟩ <;> cases hcall
      · have ht : (prStage hb bb t d cd fie (p :: rest) newPr).1 =
            [Call.listPulls hb bb,
             Call.updatePull p.number (orUndefined t) (orUndefined d) "open"] := by
          simp [prStage, hfail]
        rw [ht] at hc
        rcases List.mem_cons.1 hc with hc | hc
        · subst hc
          refine ⟨fun m tt bd st hcall => ?_, fun hh bs tt bd dr hcall => ?_⟩ <;> cases hcall
        · have hc := List.mem_singleton.1 hc
          subst hc
          refine ⟨fun m tt bd st hcall => ?_, fun hh bs tt bd dr hcall => ?_⟩
          · injection hcall with h1 h2 h3 h4
            subst h2
            subst h3
            exact ⟨orUndefined_ne_some_empty t, orUndefined_ne_some_empty d⟩
          · cases hcall

/-- Witness for C10: empty title and description on an existing closed PR
produce an update call with absent title/body that reopens the PR and keeps
its previous title and body. -/
theorem c10_empty_title_body_absent_witness :
    prStage "h" "b" "" "" "false" "false"
        [⟨1, "u", "closed", "Old", "OldB", false, 3⟩] ⟨2, "u2", "open", "", "", false, 0⟩ =
      ([Call.listPulls "h" "b", Call.updatePull 1 none none "open"],
       Except.ok ⟨1, "u", "open", "Old", "OldB", false, 3⟩) :=
  (c10_empty_title_body_absent "h" "b" "" "" "false" "false"
    [⟨1, "u", "closed", "Old", "OldB", false, 3⟩] ⟨2, "u2", "open", "", "", false, 0⟩
    ⟨1, "u", "closed", "Old", "OldB", false, 3⟩).1 rfl (by decide)
